import Mathlib

/-
Verification of the bqls semantic-navigation engine against its Go source
(langserver/diagnostic.go, langserver/internal/source/project.go and the
related source files). Go strings are byte sequences, so text is modelled
as a list of bytes (`GoString`); machine integers are modelled as `Nat`
with explicit bounds where they matter. Fallible Go functions returning
`(T, error)` are modelled with `Except`/`Option`, and a nil-pointer
dereference is modelled as an explicit crash outcome.
-/

set_option autoImplicit false

namespace Bqls

/-- A Go string, viewed as its byte sequence (`len` in Go counts bytes). -/
abbrev GoString := List Nat

/-- Converts an ASCII Lean string literal to its Go byte representation.
Used only to write byte strings readably; all operations act on bytes. -/
def gs (s : String) : GoString := s.toList.map Char.toNat

/-- The byte value of the line feed character. -/
def nlByte : Nat := 10

/-- The byte value of the carriage return character. -/
def crByte : Nat := 13

/-- Go `strings.Split(s, "\n")`: splits a byte string on the newline byte.
Always returns at least one (possibly empty) part. -/
def splitOnNl : GoString → List GoString
  | [] => [[]]
  | b :: rest =>
    if b = nlByte then [] :: splitOnNl rest
    else
      match splitOnNl rest with
      | [] => [[b]]
      | l :: ls => (b :: l) :: ls

/-- Drops one trailing carriage return, as `bufio.ScanLines` does with its
`dropCR` helper applied to every token. -/
def stripTrailingCR (l : GoString) : GoString :=
  if l.getLast? = some crByte then l.dropLast else l

/-- The token list produced by a `bufio.Scanner` with `bufio.ScanLines` when
the lines of the input (split on the newline byte) are `lines`: every token
has one trailing carriage return stripped, and the scanner emits no final
empty token when the input ends with a newline (equivalently, the final
empty line is dropped) nor any token for empty input. -/
def scanTokens : List GoString → List GoString
  | [] => []
  | [l] => if l = [] then [] else [stripTrailingCR l]
  | l :: rest => stripTrailingCR l :: scanTokens rest

/-- All tokens a `bufio.Scanner` with `bufio.ScanLines` yields on `sql`. -/
def scanLines (sql : GoString) : List GoString :=
  scanTokens (splitOnNl sql)

/-- An LSP line/character position (`lsp.Position`). -/
structure Position where
  line : Nat
  character : Nat
deriving DecidableEq, Repr

/-- The loop of `positionToByteOffset`: runs `line` iterations; each consumes
the next scanner token and adds its byte length plus one, and once the
scanner is exhausted `Scan` fails, `Text()` is empty and each further
iteration adds exactly one. -/
def scanOffset : List GoString → Nat → Nat
  | _, 0 => 0
  | [], k + 1 => k + 1
  | t :: rest, k + 1 => t.length + 1 + scanOffset rest k

/-- Function positionToByteOffset from diagnostic.go: scans `position.line` lines,
summing each scanned line length plus one separator byte, then adds the
character count. -/
def positionToByteOffset (sql : GoString) (position : Position) : Nat :=
  scanOffset (scanLines sql) position.line + position.character

/-- The loop of `byteOffsetToPosition`: walks the lines, returning as soon as
the remaining offset is at most the current line length, else consuming the
line plus its separator byte. -/
def byteOffsetToPositionAux : List GoString → Nat → Nat → Option Position
  | [], _, _ => none
  | l :: rest, line, offset =>
    if offset < l.length + 1 then
      some ⟨line, offset⟩
    else
      byteOffsetToPositionAux rest (line + 1) (offset - (l.length + 1))

/-- Function byteOffsetToPosition from diagnostic.go: splits on the newline byte and
walks the lines; `none` models the `false` result past the end of text. -/
def byteOffsetToPosition (sql : GoString) (offset : Nat) : Option Position :=
  byteOffsetToPositionAux (splitOnNl sql) 0 offset

/-- Byte offset of the start of line `k` (sum of the lengths of the lines
before it, plus one separator byte for each). -/
def offsetSumL : List GoString → Nat → Nat
  | _, 0 => 0
  | [], _ + 1 => 0
  | l :: rest, k + 1 => l.length + 1 + offsetSumL rest k

theorem scanOffset_zero (tokens : List GoString) : scanOffset tokens 0 = 0 := by
  cases tokens <;> rfl

theorem byteOffsetToPositionAux_spec (lines : List GoString) :
    ∀ (k line0 c : Nat) (hk : k < lines.length),
      c ≤ (lines.get ⟨k, hk⟩).length →
      byteOffsetToPositionAux lines line0 (offsetSumL lines k + c) =
        some ⟨line0 + k, c⟩ := by
  induction lines with
  | nil => intro k line0 c hk _; simp at hk
  | cons l rest ih =>
    intro k line0 c hk hc
    cases k with
    | zero =>
      simp only [List.get] at hc
      simp only [offsetSumL, byteOffsetToPositionAux, Nat.zero_add]
      rw [if_pos (by omega)]
      simp
    | succ k =>
      have hk2 : k < rest.length := by
        simpa [Nat.succ_lt_succ_iff] using hk
      have hc2 : c ≤ (rest.get ⟨k, hk2⟩).length := by
        simpa only [List.get_cons_succ] using hc
      have hrec := ih k (line0 + 1) c hk2 hc2
      simp only [offsetSumL, byteOffsetToPositionAux]
      rw [if_neg (by omega)]
      have harith :
          l.length + 1 + offsetSumL rest k + c - (l.length + 1) =
            offsetSumL rest k + c := by omega
      rw [harith, hrec]
      have : line0 + 1 + k = line0 + (k + 1) := by omega
      rw [this]

theorem scanOffset_scanTokens (lines : List GoString) :
    ∀ k : Nat, (∀ l ∈ lines, stripTrailingCR l = l) → k < lines.length →
      scanOffset (scanTokens lines) k = offsetSumL lines k := by
  induction lines with
  | nil => intro k _ hk; simp at hk
  | cons l rest ih =>
    intro k hcr hk
    cases k with
    | zero => rw [scanOffset_zero]; rfl
    | succ k =>
      cases rest with
      | nil => simp at hk
      | cons l2 rest2 =>
        have hl : stripTrailingCR l = l := hcr l (by simp)
        simp only [scanTokens, hl, scanOffset, offsetSumL]
        rw [ih k (fun x hx => hcr x (by simp [hx])) (by simpa using hk)]

theorem positionToByteOffset_eq (sql : GoString) (P : Position)
    (hcr : ∀ l ∈ splitOnNl sql, stripTrailingCR l = l)
    (hline : P.line < (splitOnNl sql).length) :
    positionToByteOffset sql P =
      offsetSumL (splitOnNl sql) P.line + P.character := by
  unfold positionToByteOffset scanLines
  rw [scanOffset_scanTokens _ _ hcr hline]

/-- C3 (amended): for every text none of whose lines ends in a carriage
return, and every position within bounds (line index below the line count,
character at most the byte length of its line), converting the position to a
byte offset and back returns found with exactly the original position; this
holds at the line-boundary positions as well, so no tie-break exception is
needed. -/
theorem position_offset_roundTrip (sql : GoString) (P : Position)
    (hcr : ∀ l ∈ splitOnNl sql, stripTrailingCR l = l)
    (hline : P.line < (splitOnNl sql).length)
    (hchar : P.character ≤ ((splitOnNl sql).get ⟨P.line, hline⟩).length) :
    byteOffsetToPosition sql (positionToByteOffset sql P) = some P := by
  rw [positionToByteOffset_eq sql P hcr hline]
  unfold byteOffsetToPosition
  have h := byteOffsetToPositionAux_spec (splitOnNl sql) P.line 0 P.character
    hline hchar
  simpa using h

theorem position_offset_roundTrip_witness :
    byteOffsetToPosition (gs "ab\ncd")
      (positionToByteOffset (gs "ab\ncd") ⟨1, 1⟩) = some ⟨1, 1⟩ :=
  position_offset_roundTrip (gs "ab\ncd") ⟨1, 1⟩ (by decide) (by decide)
    (by decide)

/-- C3 counterexample: for the text with a carriage-return line ending
"ab\r\ncd" and the in-bounds position (line 1, character 0), the round trip
returns (line 0, character 3), not the original position: the offset loop
reads scanner tokens with the carriage return stripped while the reverse
direction splits the raw text, so the two line lengths disagree. -/
theorem position_offset_roundTrip_cr_counterexample :
    byteOffsetToPosition (gs "ab\r\ncd")
        (positionToByteOffset (gs "ab\r\ncd") ⟨1, 0⟩) = some ⟨0, 3⟩ ∧
      1 < (splitOnNl (gs "ab\r\ncd")).length ∧
      some (⟨0, 3⟩ : Position) ≠ some (⟨1, 0⟩ : Position) := by decide

/-- C6 (amended): a byte offset that sits exactly at a line boundary (the
position of the separator after line i) resolves to the trailing position of
line i (character equal to the line length), not to character 0 of line i+1:
the containment test of the loop is inclusive of the position one past the
last character. -/
theorem byteOffset_boundary_prevLine (sql : GoString) (i : Nat)
    (hi : i < (splitOnNl sql).length)
    (_hnext : i + 1 < (splitOnNl sql).length) :
    byteOffsetToPosition sql
        (offsetSumL (splitOnNl sql) i +
          ((splitOnNl sql).get ⟨i, hi⟩).length) =
      some ⟨i, ((splitOnNl sql).get ⟨i, hi⟩).length⟩ ∧
    (⟨i, ((splitOnNl sql).get ⟨i, hi⟩).length⟩ : Position) ≠ ⟨i + 1, 0⟩ := by
  constructor
  · have h := byteOffsetToPositionAux_spec (splitOnNl sql) i 0
      ((splitOnNl sql).get ⟨i, hi⟩).length hi (Nat.le_refl _)
    unfold byteOffsetToPosition
    simpa using h
  · intro h
    have := congrArg Position.line h
    simp at this

theorem byteOffset_boundary_prevLine_witness :
    byteOffsetToPosition (gs "ab\ncd")
        (offsetSumL (splitOnNl (gs "ab\ncd")) 0 +
          ((splitOnNl (gs "ab\ncd")).get ⟨0, by decide⟩).length) =
      some ⟨0, ((splitOnNl (gs "ab\ncd")).get ⟨0, by decide⟩).length⟩ ∧
    (⟨0, ((splitOnNl (gs "ab\ncd")).get ⟨0, by decide⟩).length⟩ : Position) ≠
      ⟨1, 0⟩ :=
  byteOffset_boundary_prevLine (gs "ab\ncd") 0 (by decide) (by decide)

/-- C6 counterexample: in the text "ab\ncd" the offset 2 is exactly the
newline separator; the code resolves it to (line 0, character 2), the
trailing position of the previous line, not to (line 1, character 0) as the
claim states. -/
theorem byteOffset_boundary_counterexample :
    byteOffsetToPosition (gs "ab\ncd") 2 = some ⟨0, 2⟩ ∧
      byteOffsetToPosition (gs "ab\ncd") 2 ≠ some ⟨1, 0⟩ := by decide

/-- Kind discriminator for surface AST nodes. The Go `lookupNode` generic is
constrained by the `astNode` interface to the first three kinds; every other
node kind of the surface tree is `otherNode`. -/
inductive SurfaceKind where
  | tablePathExpression
  | pathExpression
  | selectColumn
  | otherNode
deriving DecidableEq, Repr

/-- Inclusive byte-offset interval attached to AST nodes
(`types.ParseLocationRange`). -/
structure LocationRange where
  startOffset : Nat
  endOffset : Nat
deriving DecidableEq, Repr

/-- A surface AST node: kind, optional location range, child list, and the
kind-specific payloads read by the engine. For a path expression `names`
holds the identifier segments (`Names()`, each segment a name string); for a
select column `selAlias` holds the alias name when an explicit alias is
present (`Alias()`), and its expression (`Expression()`) is its first child,
as in the zetasql AST where the expression is the first child of the select
column node. -/
inductive SurfaceNode where
  | mk (kind : SurfaceKind) (range : Option LocationRange)
      (names : List GoString) (selAlias : Option GoString)
      (children : List SurfaceNode)

def SurfaceNode.kind : SurfaceNode → SurfaceKind
  | .mk k _ _ _ _ => k

def SurfaceNode.range : SurfaceNode → Option LocationRange
  | .mk _ r _ _ _ => r

def SurfaceNode.names : SurfaceNode → List GoString
  | .mk _ _ ns _ _ => ns

def SurfaceNode.selAlias : SurfaceNode → Option GoString
  | .mk _ _ _ a _ => a

def SurfaceNode.children : SurfaceNode → List SurfaceNode
  | .mk _ _ _ _ cs => cs

/-- Accessor `Expression()` of a select column node: its first child. -/
def SurfaceNode.expression (n : SurfaceNode) : Option SurfaceNode :=
  n.children.head?

/-- A node instance of the parent-linked surface tree, represented by the
node itself followed by its proper ancestors up to the root (innermost
first). `Parent()` navigation is the tail of the chain, and the nil node of
the Go code is the empty chain. -/
abbrev NodeChain := List SurfaceNode

/-- Function `lookupNode[T]` from diagnostic.go: a nil node gives not-found; a node
whose own type matches `T` is returned; otherwise recurse on the parent. -/
def lookupNode (T : SurfaceKind) : NodeChain → Option SurfaceNode
  | [] => none
  | n :: rest => if n.kind = T then some n else lookupNode T rest

/-- C4 (amended): lookupNode returns the first node whose kind matches T in
the chain consisting of the starting node itself followed by its ancestors —
the starting node is tested first and is returned when it already matches —
and returns not-found when the chain is exhausted past the root without any
match. -/
theorem lookupNode_finds_first (T : SurfaceKind) (chain : NodeChain) :
    lookupNode T chain = chain.find? (fun m => m.kind == T) := by
  induction chain with
  | nil => rfl
  | cons n rest ih =>
    by_cases h : n.kind = T
    · simp [lookupNode, List.find?, h]
    · have hb : (n.kind == T) = false := by simpa using h
      simp [lookupNode, List.find?, h, hb, ih]

/-- A root node (no parent) whose kind is the searched kind, used to refute
the strictly-upward reading of C4. -/
def selfMatchNode : SurfaceNode := .mk .tablePathExpression none [] none []

/-- C4 counterexample: applied to a root node whose own kind is the searched
kind, lookupNode returns the starting node itself even though the node has
no proper ancestor at all; under the claim (only proper ancestors are
matched, not-found at the root) the result would have been none. -/
theorem lookupNode_self_counterexample :
    lookupNode .tablePathExpression [selfMatchNode] = some selfMatchNode ∧
      some selfMatchNode ≠ (none : Option SurfaceNode) := ⟨rfl, by simp⟩

/-- State of the `diagnostic` event loop from langserver/diagnostic.go:
`running` models the Go map from URI to the `context.CancelFunc` of the
currently installed run; cancel functions are modelled by handle numbers
issued in creation order. `cancelled` records every handle whose
cancellation has been invoked, in invocation order, and `nextHandle` is the
next fresh handle number. -/
structure SchedState where
  running : List (GoString × Nat)
  cancelled : List Nat
  nextHandle : Nat

/-- Go map read `running[uri]` on the association list. -/
def lookupHandle : List (GoString × Nat) → GoString → Option Nat
  | [], _ => none
  | (k, v) :: rest, uri => if k = uri then some v else lookupHandle rest uri

/-- Go map write `running[uri] = cancel` on the association list: replaces
the binding in place when the key is present, appends it otherwise. -/
def insertHandle : List (GoString × Nat) → GoString → Nat →
    List (GoString × Nat)
  | [], uri, h => [(uri, h)]
  | (k, v) :: rest, uri, h =>
    if k = uri then (uri, h) :: rest else (k, v) :: insertHandle rest uri h

/-- One iteration of the `diagnostic` event loop on a change event for
`uri`: when the map holds a cancel handle for the URI its cancellation is
invoked, then a fresh cancellable context is created and its cancel handle
is stored under the URI, replacing the old one. -/
def diagnosticStep (st : SchedState) (uri : GoString) : SchedState :=
  match lookupHandle st.running uri with
  | some cancel =>
    { running := insertHandle st.running uri st.nextHandle
      cancelled := st.cancelled ++ [cancel]
      nextHandle := st.nextHandle + 1 }
  | none =>
    { running := insertHandle st.running uri st.nextHandle
      cancelled := st.cancelled
      nextHandle := st.nextHandle + 1 }

/-- The scheduler state before the first event: the empty map created at the
top of `diagnostic`. -/
def initSched : SchedState := ⟨[], [], 0⟩

/-- The event loop run over a finite prefix of the event stream. -/
def runScheduler (events : List GoString) : SchedState :=
  events.foldl diagnosticStep initSched

/-- The URIs bound in the running map are pairwise distinct, so the map holds
at most one outstanding handle per URI. -/
def KeysNodup (st : SchedState) : Prop := (st.running.map Prod.fst).Nodup

/-- Every stored handle was issued before the current fresh counter. -/
def HandlesFresh (st : SchedState) : Prop :=
  ∀ p ∈ st.running, p.2 < st.nextHandle

theorem insertHandle_keys (m : List (GoString × Nat)) (uri : GoString)
    (h : Nat) :
    (insertHandle m uri h).map Prod.fst =
      if uri ∈ m.map Prod.fst then m.map Prod.fst
      else m.map Prod.fst ++ [uri] := by
  induction m with
  | nil => simp [insertHandle]
  | cons p rest ih =>
    obtain ⟨k, v⟩ := p
    by_cases hk : k = uri
    · subst hk; simp [insertHandle]
    · simp only [insertHandle, if_neg hk, List.map_cons, ih]
      by_cases hm : uri ∈ rest.map Prod.fst
      · simp [hm, Ne.symm hk]
      · simp [hm, Ne.symm hk]

theorem mem_insertHandle (m : List (GoString × Nat)) (uri : GoString)
    (h : Nat) (p : GoString × Nat) :
    p ∈ insertHandle m uri h → p ∈ m ∨ p = (uri, h) := by
  induction m with
  | nil => simp [insertHandle]
  | cons q rest ih =>
    obtain ⟨k, v⟩ := q
    by_cases hk : k = uri
    · subst hk
      intro hp
      simp only [insertHandle, if_true, eq_self_iff_true, List.mem_cons] at hp
      rcases hp with hp | hp
      · right; exact hp
      · left; exact List.mem_cons_of_mem _ hp
    · intro hp
      simp only [insertHandle, if_neg hk, List.mem_cons] at hp
      rcases hp with hp | hp
      · subst hp; left; exact List.mem_cons_self _ _
      · rcases ih hp with hin | heq
        · left; exact List.mem_cons_of_mem _ hin
        · right; exact heq

theorem lookupHandle_insert_self (m : List (GoString × Nat))
    (uri : GoString) (h : Nat) :
    lookupHandle (insertHandle m uri h) uri = some h := by
  induction m with
  | nil => simp [insertHandle, lookupHandle]
  | cons q rest ih =>
    obtain ⟨k, v⟩ := q
    by_cases hk : k = uri
    · subst hk; simp [insertHandle, lookupHandle]
    · simp [insertHandle, lookupHandle, hk, ih]

theorem lookupHandle_mem (m : List (GoString × Nat)) (uri : GoString)
    (h : Nat) : lookupHandle m uri = some h → (uri, h) ∈ m := by
  induction m with
  | nil => simp [lookupHandle]
  | cons q rest ih =>
    obtain ⟨k, v⟩ := q
    by_cases hk : k = uri
    · subst hk
      intro hl
      simp only [lookupHandle, eq_self_iff_true, if_true, Option.some.injEq] at hl
      subst hl
      exact List.mem_cons_self _ _
    · intro hl
      simp only [lookupHandle, if_neg hk] at hl
      exact List.mem_cons_of_mem _ (ih hl)

theorem diagnosticStep_preserves (st : SchedState) (uri : GoString)
    (hnd : KeysNodup st) (hf : HandlesFresh st) :
    KeysNodup (diagnosticStep st uri) ∧ HandlesFresh (diagnosticStep st uri) := by
  have keys : ((insertHandle st.running uri st.nextHandle).map Prod.fst).Nodup := by
    rw [insertHandle_keys]
    by_cases hm : uri ∈ st.running.map Prod.fst
    · simpa [hm] using hnd
    · have happ : ((st.running.map Prod.fst) ++ [uri]).Nodup := by
        rw [List.nodup_append]
        refine ⟨hnd, List.nodup_singleton uri, ?_⟩
        intro a ha hb
        rw [List.mem_singleton] at hb
        subst hb
        exact hm ha
      simpa [hm] using happ
  have fresh : ∀ p ∈ insertHandle st.running uri st.nextHandle,
      p.2 < st.nextHandle + 1 := by
    intro p hp
    rcases mem_insertHandle _ _ _ _ hp with hin | rfl
    · exact Nat.lt_succ_of_lt (hf p hin)
    · exact Nat.lt_succ_self _
  unfold diagnosticStep
  cases hl : lookupHandle st.running uri <;>
    exact ⟨keys, fresh⟩

theorem runScheduler_inv (events : List GoString) :
    KeysNodup (runScheduler events) ∧ HandlesFresh (runScheduler events) := by
  suffices h : ∀ (st : SchedState), KeysNodup st → HandlesFresh st →
      KeysNodup (events.foldl diagnosticStep st) ∧
        HandlesFresh (events.foldl diagnosticStep st) by
    exact h initSched (by simp [KeysNodup, initSched]) (by simp [HandlesFresh, initSched])
  induction events with
  | nil => intro st h1 h2; exact ⟨h1, h2⟩
  | cons e rest ih =>
    intro st h1 h2
    have hstep := diagnosticStep_preserves st e h1 h2
    exact ih (diagnosticStep st e) hstep.1 hstep.2

/-- C7: the scheduler keeps at most one outstanding cancellation handle per
URI at every point of its event loop (the running-map keys stay pairwise
distinct after any event sequence), and on a change event for a URI that
already has a handle, that handle is cancelled and the map binding is
replaced by the freshly created handle, which is distinct from the old
one. -/
theorem diagnostic_scheduler_single_run :
    (∀ events : List GoString,
        KeysNodup (runScheduler events) ∧ HandlesFresh (runScheduler events)) ∧
    (∀ (st : SchedState) (uri : GoString) (h : Nat),
        HandlesFresh st → lookupHandle st.running uri = some h →
        (diagnosticStep st uri).cancelled = st.cancelled ++ [h] ∧
        lookupHandle (diagnosticStep st uri).running uri = some st.nextHandle ∧
        st.nextHandle ≠ h) := by
  refine ⟨runScheduler_inv, ?_⟩
  intro st uri h hf hl
  have hmem := lookupHandle_mem _ _ _ hl
  have hlt : h < st.nextHandle := hf (uri, h) hmem
  refine ⟨?_, ?_, by omega⟩
  · unfold diagnosticStep
    rw [hl]
  · unfold diagnosticStep
    rw [hl]
    exact lookupHandle_insert_self _ _ _

theorem diagnostic_scheduler_single_run_witness :
    (diagnosticStep (runScheduler [gs "file:///a.sql"]) (gs "file:///a.sql")).cancelled =
        (runScheduler [gs "file:///a.sql"]).cancelled ++ [0] ∧
      lookupHandle
          (diagnosticStep (runScheduler [gs "file:///a.sql"]) (gs "file:///a.sql")).running
          (gs "file:///a.sql") =
        some (runScheduler [gs "file:///a.sql"]).nextHandle ∧
      (runScheduler [gs "file:///a.sql"]).nextHandle ≠ 0 :=
  diagnostic_scheduler_single_run.2 (runScheduler [gs "file:///a.sql"])
    (gs "file:///a.sql") 0
    (runScheduler_inv [gs "file:///a.sql"]).2 (by decide)

/-- Go `strings.Join` with separator `sep`. -/
def goJoin (sep : GoString) : List GoString → GoString
  | [] => []
  | [s] => s
  | s :: rest => s ++ sep ++ goJoin sep rest

/-- Go `strings.HasPrefix`. -/
def goStartsWith : GoString → GoString → Bool
  | _, [] => true
  | [], _ :: _ => false
  | a :: s, b :: p => a == b && goStartsWith s p

/-- Go `strings.TrimPrefix`: removes the leading occurrence when present. -/
def goTrimLead (s pre : GoString) : GoString :=
  if goStartsWith s pre then s.drop pre.length else s

/-- A resolved column (`*rast.Column`): its name, the rendering of its
statically inferred type (`Type().TypeName(types.ProductExternal)`), and the
name of its table (`TableName()`). -/
structure RColumn where
  name : GoString
  typeName : GoString
  tableName : GoString
deriving DecidableEq, Repr

/-- Kind discriminator (with kind-specific payload) for resolved tree nodes:
the node types the engine matches on, the scan kinds of the input-chain
switch, a default scan kind and a default non-scan kind. A column-ref node
carries `Column()`, which Go allows to be nil. -/
inductive ResolvedKind where
  | functionCall (sqlName : GoString) (sigs : List GoString)
  | getStructField (typeName : GoString)
  | columnRef (column : Option RColumn)
  | projectScan
  | withScan
  | orderByScan
  | tableScan (tblAlias : GoString)
  | withRefScan (withQueryName : GoString)
  | otherScan
  | otherResolved
deriving DecidableEq, Repr

/-- A resolved tree node: kind, optional parse location range, the column
list when the node is a scan (`ScanNode.ColumnList()`), and children. For
the pass-through scan kinds the walked input (the `InputScan()` of a project
or order-by scan, the `Query()` of a with scan) is the first child. -/
inductive ResolvedNode where
  | mk (kind : ResolvedKind) (range : Option LocationRange)
      (columnList : List RColumn) (children : List ResolvedNode)

def ResolvedNode.kind : ResolvedNode → ResolvedKind
  | .mk k _ _ _ => k

def ResolvedNode.range : ResolvedNode → Option LocationRange
  | .mk _ r _ _ => r

def ResolvedNode.columnList : ResolvedNode → List RColumn
  | .mk _ _ cl _ => cl

def ResolvedNode.children : ResolvedNode → List ResolvedNode
  | .mk _ _ _ cs => cs

mutual
/-- The visit order of `rast.Walk`: the node itself, then its children,
depth first. -/
def preorderR : ResolvedNode → List ResolvedNode
  | .mk k r cl cs => .mk k r cl cs :: preorderRList cs

def preorderRList : List ResolvedNode → List ResolvedNode
  | [] => []
  | c :: cs => preorderR c ++ preorderRList cs
end

mutual
/-- The visit order of `ast.Walk` over the surface tree, with every visited
node represented as its chain (the node followed by its ancestors, so that
parent navigation stays available on the result). -/
def walkChains (anc : List SurfaceNode) : SurfaceNode → List NodeChain
  | .mk k r ns a cs =>
    (SurfaceNode.mk k r ns a cs :: anc) ::
      walkChainsList (SurfaceNode.mk k r ns a cs :: anc) cs

def walkChainsList (anc : List SurfaceNode) : List SurfaceNode → List NodeChain
  | [] => []
  | c :: cs => walkChains anc c ++ walkChainsList anc cs
end

/-- The containment test shared by the search functions: a node without a
location range is skipped, and the interval is inclusive at both ends. -/
def rangeContains (r : Option LocationRange) (termOffset : Nat) : Bool :=
  match r with
  | none => false
  | some lr => decide (lr.startOffset ≤ termOffset ∧ termOffset ≤ lr.endOffset)

/-- Function `searchAstNode[T]` from diagnostic.go: full walk of the surface tree
keeping the last visited node of kind `T` whose range contains the offset
(a later match overwrites an earlier one); the node is returned as its
chain. -/
def searchAstNode (T : SurfaceKind) (root : SurfaceNode) (termOffset : Nat) :
    Option NodeChain :=
  (walkChains [] root).foldl
    (fun acc chain =>
      match chain with
      | [] => acc
      | n :: _ =>
        if (n.kind == T) && rangeContains n.range termOffset then some chain
        else acc)
    none

/-- Function `searchResolvedAstNode[T]` from diagnostic.go, the Go type test given as
a kind predicate: full walk of the resolved statement keeping the last node
of the kind whose range contains the offset. -/
def searchResolvedAstNode (isT : ResolvedKind → Bool) (stmt : ResolvedNode)
    (termOffset : Nat) : Option ResolvedNode :=
  (preorderR stmt).foldl
    (fun acc n =>
      if isT n.kind && rangeContains n.range termOffset then some n else acc)
    none

def isFunctionCall : ResolvedKind → Bool
  | .functionCall _ _ => true
  | _ => false

def isGetStructField : ResolvedKind → Bool
  | .getStructField _ => true
  | _ => false

def isColumnRef : ResolvedKind → Bool
  | .columnRef _ => true
  | _ => false

/-- The `rast.ScanNode` interface test of the scan-collection walk. -/
def isScanNode : ResolvedKind → Bool
  | .projectScan => true
  | .withScan => true
  | .orderByScan => true
  | .tableScan _ => true
  | .withRefScan _ => true
  | .otherScan => true
  | _ => false

/-- Go `math.MaxInt` on a 64-bit build. -/
def maxInt : Nat := 2 ^ 63 - 1

/-- The scan-selection loop of getSelectColumnNodeToAnalyzedOutputCoumnNode:
folds over the collected scan nodes carrying (mostNarrowWidth,
targetScanNode); a scan without a range is skipped, and a scan whose width
is below mostNarrowWidth becomes the target. mostNarrowWidth is never
updated from its initial math.MaxInt and the cursor offset is not consulted,
exactly as in the source. -/
def selectTargetScan (scanNodes : List ResolvedNode) : Option ResolvedNode :=
  (scanNodes.foldl
    (fun st node =>
      match node.range with
      | none => st
      | some lr =>
        if lr.endOffset - lr.startOffset < st.1 then (st.1, some node) else st)
    ((maxInt, none) : Nat × Option ResolvedNode)).2

/-- The input-chain walk of getSelectColumnNodeToAnalyzedOutputCoumnNode:
pass through project, with and order-by scans into their input; record the
alias of a table scan when it is non-empty, or the query name of a with-ref
scan, and stop; stop silently on any other kind (the logged default case) or
when an input is missing (nil). -/
def scanChainRefNames : ResolvedNode → List GoString
  | .mk .projectScan _ _ (c :: _) => scanChainRefNames c
  | .mk .projectScan _ _ [] => []
  | .mk .withScan _ _ (c :: _) => scanChainRefNames c
  | .mk .withScan _ _ [] => []
  | .mk .orderByScan _ _ (c :: _) => scanChainRefNames c
  | .mk .orderByScan _ _ [] => []
  | .mk (.tableScan a) _ _ _ => if a = [] then [] else [a]
  | .mk (.withRefScan w) _ _ _ => [w]
  | .mk _ _ _ _ => []

/-- getSelectColumnName from diagnostic.go: reads the expression of the
select column node; when it is a path expression the candidate name is the
segment names joined with dots; any other or missing expression (a failed
type assertion in Go) gives not-ok. The explicit alias of the select item is
not consulted by this version of the function. -/
def getSelectColumnName (targetNode : SurfaceNode) : Option GoString :=
  match targetNode.expression with
  | some e =>
    if e.kind = .pathExpression then some (goJoin (gs ".") e.names) else none
  | none => none

/-- The table-prefix stripping loop of the select-column resolution: for
each collected reference name, when "name." leads the candidate column name
it is trimmed from it. -/
def stripTablePrefixes (refNames : List GoString) (columnName : GoString) :
    GoString :=
  refNames.foldl
    (fun cn refName =>
      let tablePref := refName ++ gs "."
      if goStartsWith cn tablePref then goTrimLead cn tablePref else cn)
    columnName

/-- One resolved analysis output (`zetasql.AnalyzerOutput`): the resolved
statement tree, with the byte-offset span its statement occupies. -/
structure AnalyzerOutput where
  span : LocationRange
  statement : ResolvedNode

/-- Outcome of a fallible Go call `(T, error)`, with a runtime panic (nil
dereference) made explicit. Error values are modelled by their rendered
message; a `%w`-wrapped error is the concatenation of the wrap text and the
wrapped message. -/
inductive GoOutcome (α : Type) where
  | ok (val : α)
  | err (msg : GoString)
  | panicked
deriving DecidableEq

/-- getSelectColumnNodeToAnalyzedOutputCoumnNode from diagnostic.go: collect
every scan node of the resolved tree, select a target scan with the
selection loop, walk its input chain for reference names, compute the
candidate column name, strip each collected "name." table prefix from it,
and return the first column of the target scan column list bearing the
resulting name. The error message of the failed name computation carries a
debug dump in Go, modelled here by its fixed prefix; iterating ColumnList()
of the nil target scan when no scan had a range is a panic. -/
def getSelectColumnNodeToAnalyzedOutputCoumnNode (output : AnalyzerOutput)
    (column : SurfaceNode) (_termOffset : Nat) : GoOutcome RColumn :=
  let scanNodes := (preorderR output.statement).filter (fun n => isScanNode n.kind)
  let targetScanNode := selectTargetScan scanNodes
  let refNames :=
    match targetScanNode with
    | none => []
    | some n => scanChainRefNames n
  match getSelectColumnName column with
  | none => .err (gs "failed getSelectColumnName: ")
  | some columnName0 =>
    let columnName := stripTablePrefixes refNames columnName0
    match targetScanNode with
    | none => .panicked
    | some scan =>
      match scan.columnList.find? (fun c => c.name == columnName) with
      | some c => .ok c
      | none => .err (gs "failed to find column info")

/-- The narrow scan of the C2 failing input: width 2, containing offset 11. -/
def narrowScan : ResolvedNode := .mk (.tableScan (gs "a")) (some ⟨10, 12⟩) [] []

/-- The wide scan of the C2 failing input: width 50. -/
def wideScan : ResolvedNode := .mk .projectScan (some ⟨0, 50⟩) [] []

/-- C2: evaluating the scan-selection loop at the failing input. The
narrower scan (width 2), whose span contains the cursor offset 11, comes
first; the selection still returns the later, wider scan (width 50), because
mostNarrowWidth is never updated after a match, so every ranged scan
overwrites the target, and the offset never enters the comparison. -/
theorem selectTargetScan_picks_last :
    selectTargetScan [narrowScan, wideScan] = some wideScan ∧
      wideScan.range.map (fun r => r.endOffset - r.startOffset) = some 50 ∧
      narrowScan.range.map (fun r => r.endOffset - r.startOffset) = some 2 ∧
      rangeContains narrowScan.range 11 = true :=
  ⟨rfl, rfl, rfl, rfl⟩

/-- A cached document (`source.File`): raw text and version. -/
structure File where
  rawText : GoString
  version : Nat

/-- An `lsp.MarkedString` hover block. -/
structure MarkedString where
  language : GoString
  value : GoString
deriving DecidableEq, Repr

/-- One field of a BigQuery table schema as read by the hover code: name,
type and description. -/
structure SchemaField where
  name : GoString
  fieldType : GoString
  description : GoString
deriving DecidableEq, Repr

/-- The recursive `Schema` struct of diagnostic.go used as the json/yaml
intermediate of the table rendering. -/
inductive SchemaTree where
  | mk (name fieldType mode description : GoString) (fields : List SchemaTree)

/-- Type `bigquery.TableMetadata` as consumed by the hover code: full id,
description, the two timestamps (carried as their formatted text, since the
Go code only formats them), and the schema field list. -/
structure TableMetadata where
  fullID : GoString
  description : GoString
  creationTime : GoString
  lastModifiedTime : GoString
  schema : List SchemaField

/-- The derived parse artifact (`source.ParsedFile`) as consumed by
TermDocument: surface tree root, per-statement analysis outputs with spans,
and the offset adjustment function. `fixTermOffsetForNode` and the analysis
pipeline live outside the given sources and are kept abstract. -/
structure ParsedFile where
  node : SurfaceNode
  outputs : List AnalyzerOutput
  fixTermOffsetForNode : Nat → Nat

/-- Modelled from the spec: `ParsedFile.FindTargetAnalyzeOutput` is not
among the given sources; section 4.4 step 2 specifies that it finds which
analysis output has the statement span containing the offset, empty when
none does. -/
def findTargetAnalyzeOutput (pf : ParsedFile) (termOffset : Nat) :
    Option AnalyzerOutput :=
  pf.outputs.find? (fun o =>
    decide (o.span.startOffset ≤ termOffset ∧ termOffset ≤ o.span.endOffset))

/-- The external collaborators of the hover path, all outside the given
sources: the document cache (`p.cache.Get` returns nil for an unknown URI,
per the nil test in Project.GetFile), the parser, the schema metadata store
(`getTableMetadataFromPath`, fallible), and the serialization helpers used
by the table rendering. -/
structure HoverEnv where
  cacheGet : GoString → Option File
  parseFile : GoString → GoString → ParsedFile
  getTableMetadataFromPath : GoString → Except GoString TableMetadata
  toJSONFields : List SchemaField → Except GoString GoString
  jsonUnmarshal : GoString → Except GoString (List SchemaTree)
  yamlMarshal : List SchemaTree → Except GoString GoString

/-- Modelled from the spec: createTableNameFromTablePathExpressionNode is
not among the given sources; section 4.4 step 1 specifies the dotted path of
the table reference (path segments joined with dots), and the earlier
in-tree version reads `PathExpr()` — the path expression child of the table
path expression — returning not-ok when it is nil. -/
def createTableNameFromTablePathExpressionNode (node : SurfaceNode) :
    Option GoString :=
  match node.children.find? (fun c => c.kind == .pathExpression) with
  | some p => some (goJoin (gs ".") p.names)
  | none => none

/-- buildBigQueryTableMetadataMarkedString from diagnostic.go: the markdown
heading block (full id, description when non-empty, the two formatted
timestamps) plus the yaml schema block produced through the serialization
helpers, whose failures propagate wrapped. -/
def buildBigQueryTableMetadataMarkedString (env : HoverEnv)
    (metadata : TableMetadata) : Except GoString (List MarkedString) :=
  let resultStr := gs "## " ++ metadata.fullID
  let resultStr :=
    if metadata.description.length > 0 then
      resultStr ++ gs "\n" ++ metadata.description
    else resultStr
  let resultStr := resultStr ++ gs "\ncreated at " ++ metadata.creationTime
  let resultStr :=
    resultStr ++ gs "\nlast modified at " ++ metadata.lastModifiedTime
  match env.toJSONFields metadata.schema with
  | .error e => .error (gs "failed to convert schema to json: " ++ e)
  | .ok schemaJson =>
    match env.jsonUnmarshal schemaJson with
    | .error e => .error (gs "failed to unmarshal json: " ++ e)
    | .ok result =>
      match env.yamlMarshal result with
      | .error e => .error (gs "failed to marshal yaml: " ++ e)
      | .ok schemaYaml =>
        .ok [⟨gs "markdown", resultStr⟩, ⟨gs "yaml", schemaYaml⟩]

/-- createTableMarkedString from diagnostic.go: extract the dotted table
path (no blocks at all when that fails), query the metadata store —
propagating its failure wrapped — and render the metadata. The `columns`
slice the Go code builds and never uses is dead code and is omitted. -/
def createTableMarkedString (env : HoverEnv) (node : SurfaceNode) :
    Except GoString (List MarkedString) :=
  match createTableNameFromTablePathExpressionNode node with
  | none => .ok []
  | some tablePath =>
    match env.getTableMetadataFromPath tablePath with
    | .error e => .error (gs "failed to get table metadata: " ++ e)
    | .ok targetTable => buildBigQueryTableMetadataMarkedString env targetTable

/-- Accessor `Function().SQLName()` of a function-call node. -/
def fcName : ResolvedKind → GoString
  | .functionCall n _ => n
  | _ => []

/-- The rendered overload signatures of a function-call node. -/
def fcSigs : ResolvedKind → List GoString
  | .functionCall _ s => s
  | _ => []

/-- Accessor `Type().TypeName(types.ProductExternal)` of a struct-field-access
node. -/
def gsfTypeName : ResolvedKind → GoString
  | .getStructField t => t
  | _ => []

/-- Accessor `Column()` of a column-ref node (nil-able in Go). -/
def crColumn : ResolvedKind → Option RColumn
  | .columnRef c => c
  | _ => none

/-- The hover value of the function-call block:
`fmt.Sprintf("## %s\n\n%s", name, strings.Join(sigs, "\n"))`. -/
def functionCallValue (sqlName : GoString) (sigs : List GoString) : GoString :=
  gs "## " ++ sqlName ++ gs "\n\n" ++ goJoin (gs "\n") sigs

/-- The local `termOffset` of TermDocument: position mapped to a byte offset
and then adjusted by `fixTermOffsetForNode`. -/
def hoverOffset (env : HoverEnv) (uri : GoString) (sql : File)
    (position : Position) : Nat :=
  (env.parseFile uri sql.rawText).fixTermOffsetForNode
    (positionToByteOffset sql.rawText position)

/-- The table-reference block of TermDocument: `some` when the block
returns (an error from createTableMarkedString, wrapped, or a non-empty
render), `none` when control falls through. -/
def tableHoverStep (env : HoverEnv) (targetChain : NodeChain) :
    Option (GoOutcome (List MarkedString)) :=
  match lookupNode .tablePathExpression targetChain with
  | some tn =>
    match createTableMarkedString env tn with
    | .error e =>
      some (.err (gs "failed to create table marked string: " ++ e))
    | .ok result => if result.length > 0 then some (.ok result) else none
  | none => none

/-- The column-reference block of TermDocument: `some` when the block
returns (nil column is an error whose message carries a debug dump in Go,
modelled by its fixed prefix; a metadata failure renders the degraded
"name: type" block; a matching schema field renders the enriched block),
`none` when control falls through — no column-ref node at the offset, or a
successful lookup whose schema has no field named like the column. -/
def columnRefStep (env : HoverEnv) (output : AnalyzerOutput)
    (termOffset : Nat) : Option (GoOutcome (List MarkedString)) :=
  match searchResolvedAstNode isColumnRef output.statement termOffset with
  | some term =>
    match crColumn term.kind with
    | none => some (.err (gs "failed to find term: "))
    | some column =>
      match env.getTableMetadataFromPath column.tableName with
      | .error _ =>
        some (.ok [⟨gs "markdown", column.name ++ gs ": " ++ column.typeName⟩])
      | .ok tableMetadata =>
        match tableMetadata.schema.find? (fun c => column.name == c.name) with
        | some c =>
          some (.ok [⟨gs "markdown",
            c.name ++ gs ": " ++ c.fieldType ++ gs "\n" ++ c.description⟩])
        | none => none
  | none => none

/-- The select-column block of TermDocument together with the final
`return nil, nil`: the resolution error is wrapped, a metadata failure
renders the degraded block, a matching schema field the enriched one, and
everything else returns empty. -/
def selectColumnStep (env : HoverEnv) (output : AnalyzerOutput)
    (targetChain : NodeChain) (termOffset : Nat) :
    GoOutcome (List MarkedString) :=
  match lookupNode .selectColumn targetChain with
  | some selectColumnNode =>
    match getSelectColumnNodeToAnalyzedOutputCoumnNode output
        selectColumnNode termOffset with
    | .panicked => .panicked
    | .err e => .err (gs "failed to get column info: " ++ e)
    | .ok column =>
      match env.getTableMetadataFromPath column.tableName with
      | .error _ =>
        .ok [⟨gs "markdown", column.name ++ gs ": " ++ column.typeName⟩]
      | .ok tableMetadata =>
        match tableMetadata.schema.find? (fun c => column.name == c.name) with
        | some c =>
          .ok [⟨gs "markdown",
            c.name ++ gs ": " ++ c.fieldType ++ gs "\n" ++ c.description⟩]
        | none => .ok []
  | none => .ok []

/-- TermDocument from diagnostic.go, the hover entry point. The cache read
is not nil-checked before `sql.RawText` is read (unlike Project.GetFile), so
a URI absent from the cache dereferences nil. Then: surface path-expression
search (empty result when none), table-reference block, analysis-output
selection (empty when none), function-call block, struct-field block,
column-reference block, select-column block, final empty result. -/
def TermDocument (env : HoverEnv) (uri : GoString) (position : Position) :
    GoOutcome (List MarkedString) :=
  match env.cacheGet uri with
  | none => .panicked
  | some sql =>
    match searchAstNode .pathExpression (env.parseFile uri sql.rawText).node
        (hoverOffset env uri sql position) with
    | none => .ok []
    | some targetChain =>
      match tableHoverStep env targetChain with
      | some r => r
      | none =>
        match findTargetAnalyzeOutput (env.parseFile uri sql.rawText)
            (hoverOffset env uri sql position) with
        | none => .ok []
        | some output =>
          match searchResolvedAstNode isFunctionCall output.statement
              (hoverOffset env uri sql position) with
          | some n =>
            .ok [⟨gs "markdown", functionCallValue (fcName n.kind) (fcSigs n.kind)⟩]
          | none =>
            match searchResolvedAstNode isGetStructField output.statement
                (hoverOffset env uri sql position) with
            | some n => .ok [⟨gs "markdown", gsfTypeName n.kind⟩]
            | none =>
              match columnRefStep env output (hoverOffset env uri sql position) with
              | some r => r
              | none =>
                selectColumnStep env output targetChain
                  (hoverOffset env uri sql position)

/-- C8: a hover request for a URI absent from the document cache (such as a
just-deleted one) does not produce the not-found outcome the spec requires:
TermDocument reads the cache without the nil check Project.GetFile performs
and dereferences the nil entry at `sql.RawText`, a crash (it does not return
a stale pre-deletion result either, since the entry is gone). -/
theorem termDocument_missing_uri_crashes (env : HoverEnv) (uri : GoString)
    (position : Position) (h : env.cacheGet uri = none) :
    TermDocument env uri position = .panicked := by
  unfold TermDocument
  rw [h]

/-- C1: on a request whose located node sits under a table path expression
(with an extractable dotted path), a metadata-store failure makes
TermDocument return the wrapped error and no blocks; on a request whose
offset lies on a resolved column-reference node with none of the earlier
strategies firing, the same failure makes it return the non-empty degraded
block of the column name and its statically inferred type, with no error. -/
theorem termDocument_metadata_failure (env : HoverEnv) (uri : GoString)
    (position : Position) (sql : File)
    (hcache : env.cacheGet uri = some sql) :
    (∀ (chain : NodeChain) (tn : SurfaceNode) (tablePath e : GoString),
      searchAstNode .pathExpression (env.parseFile uri sql.rawText).node
          (hoverOffset env uri sql position) = some chain →
      lookupNode .tablePathExpression chain = some tn →
      createTableNameFromTablePathExpressionNode tn = some tablePath →
      env.getTableMetadataFromPath tablePath = .error e →
      TermDocument env uri position =
        .err (gs "failed to create table marked string: " ++
          (gs "failed to get table metadata: " ++ e))) ∧
    (∀ (chain : NodeChain) (output : AnalyzerOutput) (term : ResolvedNode)
        (column : RColumn) (e : GoString),
      searchAstNode .pathExpression (env.parseFile uri sql.rawText).node
          (hoverOffset env uri sql position) = some chain →
      lookupNode .tablePathExpression chain = none →
      findTargetAnalyzeOutput (env.parseFile uri sql.rawText)
          (hoverOffset env uri sql position) = some output →
      searchResolvedAstNode isFunctionCall output.statement
          (hoverOffset env uri sql position) = none →
      searchResolvedAstNode isGetStructField output.statement
          (hoverOffset env uri sql position) = none →
      searchResolvedAstNode isColumnRef output.statement
          (hoverOffset env uri sql position) = some term →
      term.kind = .columnRef (some column) →
      env.getTableMetadataFromPath column.tableName = .error e →
      TermDocument env uri position =
        .ok [⟨gs "markdown", column.name ++ gs ": " ++ column.typeName⟩] ∧
      ([⟨gs "markdown", column.name ++ gs ": " ++ column.typeName⟩] :
        List MarkedString) ≠ []) := by
  constructor
  · intro chain tn tablePath e hsearch hlook hname hmeta
    simp only [TermDocument, hcache, hsearch, tableHoverStep, hlook,
      createTableMarkedString, hname, hmeta]
  · intro chain output term column e hsearch hlook houtput hfc hgsf hterm
      hkind hmeta
    refine ⟨?_, by simp⟩
    simp only [TermDocument, hcache, hsearch, tableHoverStep, hlook, houtput,
      hfc, hgsf, columnRefStep, hterm, hkind, crColumn, hmeta]

/-- C5 (amended): in the column-reference step with a resolved column, a
metadata-lookup failure renders the non-empty degraded "name: type" block
from the statically inferred type; but when the lookup succeeds and no
schema field bears the column name, the step produces nothing and control
falls through to the select-column strategy — the hover can then end empty —
instead of rendering the degraded block. -/
theorem termDocument_columnRef_degraded_or_fallthrough (env : HoverEnv)
    (uri : GoString) (position : Position) (sql : File) (chain : NodeChain)
    (output : AnalyzerOutput) (term : ResolvedNode) (column : RColumn)
    (hcache : env.cacheGet uri = some sql)
    (hsearch : searchAstNode .pathExpression
        (env.parseFile uri sql.rawText).node
        (hoverOffset env uri sql position) = some chain)
    (hlook : lookupNode .tablePathExpression chain = none)
    (houtput : findTargetAnalyzeOutput (env.parseFile uri sql.rawText)
        (hoverOffset env uri sql position) = some output)
    (hfc : searchResolvedAstNode isFunctionCall output.statement
        (hoverOffset env uri sql position) = none)
    (hgsf : searchResolvedAstNode isGetStructField output.statement
        (hoverOffset env uri sql position) = none)
    (hterm : searchResolvedAstNode isColumnRef output.statement
        (hoverOffset env uri sql position) = some term)
    (hkind : term.kind = .columnRef (some column)) :
    (∀ e, env.getTableMetadataFromPath column.tableName = .error e →
      TermDocument env uri position =
        .ok [⟨gs "markdown", column.name ++ gs ": " ++ column.typeName⟩]) ∧
    (∀ md, env.getTableMetadataFromPath column.tableName = .ok md →
      md.schema.find? (fun c => column.name == c.name) = none →
      TermDocument env uri position =
        selectColumnStep env output chain
          (hoverOffset env uri sql position)) := by
  constructor
  · intro e hmeta
    simp only [TermDocument, hcache, hsearch, tableHoverStep, hlook, houtput,
      hfc, hgsf, columnRefStep, hterm, hkind, crColumn, hmeta]
  · intro md hmeta hfind
    simp only [TermDocument, hcache, hsearch, tableHoverStep, hlook, houtput,
      hfc, hgsf, columnRefStep, hterm, hkind, crColumn, hmeta, hfind]

/-- C10: when the hover chain reaches the select-column strategy (a
select-column ancestor exists and no earlier strategy returned) and the
candidate column name, after prefix stripping, matches no column of the
selected scan column list, TermDocument returns the error
"failed to get column info" wrapping "failed to find column info", not an
empty result. -/
theorem termDocument_select_no_column_error (env : HoverEnv) (uri : GoString)
    (position : Position) (sql : File) (chain : NodeChain)
    (output : AnalyzerOutput) (scn : SurfaceNode) (scan : ResolvedNode)
    (cn : GoString)
    (hcache : env.cacheGet uri = some sql)
    (hsearch : searchAstNode .pathExpression
        (env.parseFile uri sql.rawText).node
        (hoverOffset env uri sql position) = some chain)
    (htable : tableHoverStep env chain = none)
    (houtput : findTargetAnalyzeOutput (env.parseFile uri sql.rawText)
        (hoverOffset env uri sql position) = some output)
    (hfc : searchResolvedAstNode isFunctionCall output.statement
        (hoverOffset env uri sql position) = none)
    (hgsf : searchResolvedAstNode isGetStructField output.statement
        (hoverOffset env uri sql position) = none)
    (hcr : columnRefStep env output (hoverOffset env uri sql position) = none)
    (hsel : lookupNode .selectColumn chain = some scn)
    (hname : getSelectColumnName scn = some cn)
    (hscan : selectTargetScan ((preorderR output.statement).filter
        (fun n => isScanNode n.kind)) = some scan)
    (hfind : scan.columnList.find? (fun c =>
        c.name == stripTablePrefixes (scanChainRefNames scan) cn) = none) :
    TermDocument env uri position =
      .err (gs "failed to get column info: " ++
        gs "failed to find column info") ∧
    TermDocument env uri position ≠ .ok [] := by
  have hres : getSelectColumnNodeToAnalyzedOutputCoumnNode output scn
      (hoverOffset env uri sql position) =
        .err (gs "failed to find column info") := by
    simp only [getSelectColumnNodeToAnalyzedOutputCoumnNode, hscan, hname,
      hfind]
  have hmain : TermDocument env uri position =
      .err (gs "failed to get column info: " ++
        gs "failed to find column info") := by
    simp only [TermDocument, hcache, hsearch, htable, houtput, hfc, hgsf, hcr,
      selectColumnStep, hsel, hres]
  exact ⟨hmain, by rw [hmain]; exact fun h => GoOutcome.noConfusion h⟩

/-- Column x of table t as the analyzer resolves it in the scenarios. -/
def xCol : RColumn := ⟨gs "x", gs "INT64", gs "t"⟩

/-- Scenario A, text "SELECT * FROM t": the path expression of the table
name t. -/
def tPathNode : SurfaceNode :=
  .mk .pathExpression (some ⟨14, 15⟩) [gs "t"] none []

/-- Scenario A: the table path expression over t. -/
def tTableNode : SurfaceNode :=
  .mk .tablePathExpression (some ⟨14, 15⟩) [] none [tPathNode]

/-- Scenario A: the surface root. -/
def tRootA : SurfaceNode := .mk .otherNode (some ⟨0, 15⟩) [] none [tTableNode]

/-- Scenario A environment: hover over the table name with a failing
metadata store. -/
def envTableFail : HoverEnv where
  cacheGet := fun _ => some ⟨gs "SELECT * FROM t", 1⟩
  parseFile := fun _ _ => ⟨tRootA, [], fun off => off⟩
  getTableMetadataFromPath := fun _ => .error (gs "metadata down")
  toJSONFields := fun _ => .ok []
  jsonUnmarshal := fun _ => .ok []
  yamlMarshal := fun _ => .ok []

/-- Scenario B, text "SELECT x FROM t": the path expression of x in the
select list (no select-column ancestor is modelled; the hover lands on the
resolved column ref). -/
def xPathNode : SurfaceNode := .mk .pathExpression (some ⟨7, 8⟩) [gs "x"] none []

/-- Scenario B: the surface root. -/
def rootB : SurfaceNode := .mk .otherNode (some ⟨0, 15⟩) [] none [xPathNode]

/-- Scenario B: the resolved column-ref node over column x. -/
def xColumnRefNode : ResolvedNode :=
  .mk (.columnRef (some xCol)) (some ⟨7, 8⟩) [] []

/-- Scenario B: the resolved statement. -/
def stmtB : ResolvedNode := .mk .otherResolved (some ⟨0, 15⟩) [] [xColumnRefNode]

/-- Scenario B: its analysis output. -/
def outputB : AnalyzerOutput := ⟨⟨0, 15⟩, stmtB⟩

/-- Scenario B environment with a failing metadata store. -/
def envColumnFail : HoverEnv where
  cacheGet := fun _ => some ⟨gs "SELECT x FROM t", 1⟩
  parseFile := fun _ _ => ⟨rootB, [outputB], fun off => off⟩
  getTableMetadataFromPath := fun _ => .error (gs "metadata down")
  toJSONFields := fun _ => .ok []
  jsonUnmarshal := fun _ => .ok []
  yamlMarshal := fun _ => .ok []

/-- Table metadata for t whose schema has a field y but no field x. -/
def tMetaNoX : TableMetadata :=
  ⟨gs "proj.ds.t", [], [], [], [⟨gs "y", gs "STRING", []⟩]⟩

/-- Scenario B environment whose metadata lookup succeeds but returns a
schema without a field named x. -/
def envNoField : HoverEnv where
  cacheGet := fun _ => some ⟨gs "SELECT x FROM t", 1⟩
  parseFile := fun _ _ => ⟨rootB, [outputB], fun off => off⟩
  getTableMetadataFromPath := fun _ => .ok tMetaNoX
  toJSONFields := fun _ => .ok []
  jsonUnmarshal := fun _ => .ok []
  yamlMarshal := fun _ => .ok []

/-- An environment whose document cache holds nothing. -/
def emptyEnv : HoverEnv where
  cacheGet := fun _ => none
  parseFile := fun _ _ => ⟨.mk .otherNode none [] none [], [], fun off => off⟩
  getTableMetadataFromPath := fun _ => .error (gs "no table")
  toJSONFields := fun _ => .ok []
  jsonUnmarshal := fun _ => .ok []
  yamlMarshal := fun _ => .ok []

theorem termDocument_missing_uri_crashes_witness :
    TermDocument emptyEnv (gs "file:///deleted.sql") ⟨0, 0⟩ = .panicked :=
  termDocument_missing_uri_crashes emptyEnv (gs "file:///deleted.sql") ⟨0, 0⟩
    rfl

theorem termDocument_metadata_failure_witness :
    TermDocument envTableFail (gs "file:///q.sql") ⟨0, 14⟩ =
      .err (gs "failed to create table marked string: " ++
        (gs "failed to get table metadata: " ++ gs "metadata down")) ∧
    TermDocument envColumnFail (gs "file:///q.sql") ⟨0, 7⟩ =
      .ok [⟨gs "markdown", xCol.name ++ gs ": " ++ xCol.typeName⟩] :=
  ⟨(termDocument_metadata_failure envTableFail (gs "file:///q.sql") ⟨0, 14⟩
      ⟨gs "SELECT * FROM t", 1⟩ rfl).1 _ tTableNode (gs "t")
      (gs "metadata down") rfl rfl rfl rfl,
   ((termDocument_metadata_failure envColumnFail (gs "file:///q.sql") ⟨0, 7⟩
      ⟨gs "SELECT x FROM t", 1⟩ rfl).2 _ outputB xColumnRefNode xCol
      (gs "metadata down") rfl rfl rfl rfl rfl rfl rfl rfl).1⟩

theorem termDocument_columnRef_degraded_or_fallthrough_witness :
    TermDocument envColumnFail (gs "file:///q.sql") ⟨0, 7⟩ =
      .ok [⟨gs "markdown", xCol.name ++ gs ": " ++ xCol.typeName⟩] ∧
    TermDocument envNoField (gs "file:///q.sql") ⟨0, 7⟩ =
      selectColumnStep envNoField outputB [xPathNode, rootB]
        (hoverOffset envNoField (gs "file:///q.sql")
          ⟨gs "SELECT x FROM t", 1⟩ ⟨0, 7⟩) :=
  ⟨(termDocument_columnRef_degraded_or_fallthrough envColumnFail
      (gs "file:///q.sql") ⟨0, 7⟩ ⟨gs "SELECT x FROM t", 1⟩
      [xPathNode, rootB] outputB xColumnRefNode xCol
      rfl rfl rfl rfl rfl rfl rfl rfl).1 (gs "metadata down") rfl,
   (termDocument_columnRef_degraded_or_fallthrough envNoField
      (gs "file:///q.sql") ⟨0, 7⟩ ⟨gs "SELECT x FROM t", 1⟩
      [xPathNode, rootB] outputB xColumnRefNode xCol
      rfl rfl rfl rfl rfl rfl rfl rfl).2 tMetaNoX rfl rfl⟩

/-- C5 counterexample: with the metadata lookup succeeding and the schema
holding no field named like the column, the hover returns the empty result
(the column-reference block fell through and no later strategy fired), not
the non-empty degraded "x: INT64" block the claim requires in the
no-matching-field case. -/
theorem termDocument_no_field_counterexample :
    TermDocument envNoField (gs "file:///q.sql") ⟨0, 7⟩ = .ok [] ∧
      (GoOutcome.ok ([] : List MarkedString) ≠
        .ok [⟨gs "markdown", gs "x" ++ gs ": " ++ gs "INT64"⟩]) := by decide

/-- Scenario C9, text "SELECT a.x FROM t AS a": the path expression a.x in
the select list (bytes 7 to 10). -/
def pathAX : SurfaceNode :=
  .mk .pathExpression (some ⟨7, 10⟩) [gs "a", gs "x"] none []

/-- Scenario C9: the select-column item whose expression is a.x, without an
explicit alias. -/
def selColC9 : SurfaceNode := .mk .selectColumn (some ⟨7, 10⟩) [] none [pathAX]

/-- Scenario C9: the same select-column item with the explicit alias y. -/
def selColC9Aliased : SurfaceNode :=
  .mk .selectColumn (some ⟨7, 10⟩) [] (some (gs "y")) [pathAX]

/-- Scenario C9: the path expression of the table name t. -/
def pathT9 : SurfaceNode := .mk .pathExpression (some ⟨16, 17⟩) [gs "t"] none []

/-- Scenario C9: the table path expression "t AS a". -/
def tblNodeC9 : SurfaceNode :=
  .mk .tablePathExpression (some ⟨16, 22⟩) [] none [pathT9]

/-- Scenario C9: the surface root. -/
def rootC9 : SurfaceNode :=
  .mk .otherNode (some ⟨0, 22⟩) [] none [selColC9, tblNodeC9]

/-- Scenario C9: the resolved table scan of t with alias a, exposing column
x. -/
def tableScanC9 : ResolvedNode :=
  .mk (.tableScan (gs "a")) (some ⟨16, 22⟩) [xCol] []

/-- Scenario C9: the project scan over the table scan. -/
def projectScanC9 : ResolvedNode :=
  .mk .projectScan (some ⟨0, 22⟩) [xCol] [tableScanC9]

/-- Scenario C9: the resolved statement (the analyzer records no parse
locations for the select-list expressions, so no ranged column-ref node
exists and the hover reaches the select-column strategy). -/
def stmtC9 : ResolvedNode := .mk .otherResolved (some ⟨0, 22⟩) [] [projectScanC9]

/-- Scenario C9: its analysis output. -/
def outputC9 : AnalyzerOutput := ⟨⟨0, 22⟩, stmtC9⟩

/-- Table metadata of t with the field x described. -/
def tMetaC9 : TableMetadata :=
  ⟨gs "proj.ds.t", [], [], [], [⟨gs "x", gs "INT64", gs "the x column"⟩]⟩

/-- Scenario C9 environment. -/
def envC9 : HoverEnv where
  cacheGet := fun _ => some ⟨gs "SELECT a.x FROM t AS a", 1⟩
  parseFile := fun _ _ => ⟨rootC9, [outputC9], fun off => off⟩
  getTableMetadataFromPath := fun _ => .ok tMetaC9
  toJSONFields := fun _ => .ok []
  jsonUnmarshal := fun _ => .ok []
  yamlMarshal := fun _ => .ok []

/-- C9 (amended): for "SELECT a.x FROM t AS a" with the cursor over x, the
hover resolves through the select-column path; the candidate name is the
dotted path a.x of the item expression (getSelectColumnName does not consult
an explicit alias), the collected scan prefix "a." is stripped, and the
result matches column x of the exposed column list of t, rendered with its
schema description. -/
theorem termDocument_select_scenario :
    TermDocument envC9 (gs "file:///q.sql") ⟨0, 9⟩ =
      .ok [⟨gs "markdown",
        gs "x" ++ gs ": " ++ gs "INT64" ++ gs "\n" ++ gs "the x column"⟩] ∧
    getSelectColumnName selColC9 = some (gs "a.x") ∧
    scanChainRefNames tableScanC9 = [gs "a"] ∧
    stripTablePrefixes [gs "a"] (gs "a.x") = gs "x" ∧
    tableScanC9.columnList.find? (fun c => c.name == gs "x") = some xCol ∧
    getSelectColumnName selColC9Aliased = some (gs "a.x") :=
  ⟨rfl, rfl, rfl, rfl, rfl, rfl⟩

/-- C9 counterexample: a select item carrying the explicit alias y over the
expression a.x; the candidate name the code computes is still the dotted
expression path a.x, not the alias y, refuting the alias-first rule of the
claim for this version of getSelectColumnName. -/
theorem getSelectColumnName_alias_counterexample :
    selColC9Aliased.selAlias = some (gs "y") ∧
      getSelectColumnName selColC9Aliased = some (gs "a.x") ∧
      some (gs "a.x") ≠ some (gs "y") := by
  refine ⟨rfl, rfl, by decide⟩

/-- Scenario C10, text "SELECT z FROM t": the path expression of z. -/
def pathZ : SurfaceNode := .mk .pathExpression (some ⟨7, 8⟩) [gs "z"] none []

/-- Scenario C10: the select-column item whose expression is z. -/
def selColZ : SurfaceNode := .mk .selectColumn (some ⟨7, 8⟩) [] none [pathZ]

/-- Scenario C10: the surface root. -/
def rootZ : SurfaceNode := .mk .otherNode (some ⟨0, 15⟩) [] none [selColZ]

/-- Scenario C10: the table scan of t (no alias), exposing only column x. -/
def tableScanZ : ResolvedNode := .mk (.tableScan []) (some ⟨14, 15⟩) [xCol] []

/-- Scenario C10: the project scan over it. -/
def projectScanZ : ResolvedNode :=
  .mk .projectScan (some ⟨0, 15⟩) [xCol] [tableScanZ]

/-- Scenario C10: the resolved statement. -/
def stmtZ : ResolvedNode := .mk .otherResolved (some ⟨0, 15⟩) [] [projectScanZ]

/-- Scenario C10: its analysis output. -/
def outputZ : AnalyzerOutput := ⟨⟨0, 15⟩, stmtZ⟩

/-- Scenario C10 environment: the candidate name z matches no exposed
column. -/
def envNoColumn : HoverEnv where
  cacheGet := fun _ => some ⟨gs "SELECT z FROM t", 1⟩
  parseFile := fun _ _ => ⟨rootZ, [outputZ], fun off => off⟩
  getTableMetadataFromPath := fun _ => .error (gs "metadata down")
  toJSONFields := fun _ => .ok []
  jsonUnmarshal := fun _ => .ok []
  yamlMarshal := fun _ => .ok []

theorem termDocument_select_no_column_error_witness :
    TermDocument envNoColumn (gs "file:///q.sql") ⟨0, 7⟩ =
      .err (gs "failed to get column info: " ++
        gs "failed to find column info") ∧
    TermDocument envNoColumn (gs "file:///q.sql") ⟨0, 7⟩ ≠ .ok [] :=
  termDocument_select_no_column_error envNoColumn (gs "file:///q.sql")
    ⟨0, 7⟩ ⟨gs "SELECT z FROM t", 1⟩ [pathZ, selColZ, rootZ] outputZ selColZ
    tableScanZ (gs "z") rfl rfl rfl rfl rfl rfl rfl rfl rfl rfl rfl

end Bqls
